import Mathlib

/-!
Verification of the VCS status-detection core of the sublime_tortoise plugin
(Tortoise.py and utils.py).

Shallow embedding conventions: Python strings are List Char; the filesystem
(marker directories on the ancestor chain, directory walks) and the textual
output of spawned VCS processes are explicit parameters; a raised exception is
an Except.error result; the process-wide status cache is an association list
threaded through process_status.  Each definition carries a comment naming the
source function it embeds.
-/

namespace Tortoise

/-- Python str whitespace test, as used by str.strip with no argument. -/
def isPySpace (c : Char) : Bool :=
  c == ' ' || c == '\t' || c == '\n' || c == '\r' || c == '\x0b' || c == '\x0c'

/-- Python str.strip with no argument: drop leading and trailing whitespace. -/
def pyStrip (s : List Char) : List Char :=
  ((s.dropWhile isPySpace).reverse.dropWhile isPySpace).reverse

/-- Python str.split(sep) for a one-character separator: always returns at
least one (possibly empty) field. -/
def splitOnChar (sep : Char) : List Char → List (List Char)
  | [] => [ [] ]
  | c :: cs =>
    if c = sep then [] :: splitOnChar sep cs
    else
      match splitOnChar sep cs with
      | [] => [ [ c ] ]
      | g :: gs => (c :: g) :: gs

/-- Python s.replace(pat, repl, 1): replace only the first occurrence of pat
(an empty pat inserts repl in front, as in Python). -/
def replaceFirst (pat repl : List Char) : List Char → List Char
  | [] => if pat.isPrefixOf ([] : List Char) then repl else []
  | c :: cs =>
    if pat.isPrefixOf (c :: cs) then repl ++ (c :: cs).drop pat.length
    else c :: replaceFirst pat repl cs

/-- Last element of l as an option, defaulting to acc when l is empty; this is
the shape of a Python loop that keeps overwriting a variable. -/
def lastOr (l : List (List Char)) (acc : Option (List Char)) : Option (List Char) :=
  match l with
  | [] => acc
  | j :: rest => lastOr rest (some j)

/-- The newline character used by all the split calls in Tortoise.py. -/
def nlChar : Char := '\n'

/-- Tortoise.find_root (Tortoise.py 298-316), loop body.  The ancestor chain of
the starting directory is abstracted as levels : List Bool, one entry per
directory from the starting directory (index 0) up to and including the
filesystem root (where os.path.dirname is a fixed point), recording whether the
marker directory (os.path.exists of name under that level) is present there.
root_dir is the best match so far; the result is the index of the directory the
source assigns to self.root_dir, and none models raising
RepositoryNotFoundError. -/
def find_root_loop (find_first : Bool) : List Bool → Nat → Option Nat → Option Nat
  | [], _, root_dir => root_dir
  | b :: rest, idx, root_dir =>
    if root_dir.isSome && !b then root_dir
    else if b && find_first then some idx
    else find_root_loop find_first rest (idx + 1) (if b then some idx else root_dir)

/-- Tortoise.find_root (Tortoise.py 298-316): entry point of the walk. -/
def find_root (find_first : Bool) (levels : List Bool) : Option Nat :=
  find_root_loop find_first levels 0 none

/-- Presence of the three marker directories at one level of the ancestor
chain: .svn, .git and .hg respectively. -/
structure Markers where
  svn : Bool
  git : Bool
  hg : Bool
deriving DecidableEq

/-- The three VCS backends that get_vcs can select. -/
inductive VCSKind where
  | svn
  | git
  | hg
deriving DecidableEq

/-- One try/except block of TortoiseCommand.get_vcs: on success the vcs
variable is overwritten, on RepositoryNotFoundError (r = none) it is kept. -/
def overwriteOn (k : VCSKind) (r : Option Nat) (v : Option (VCSKind × Nat)) :
    Option (VCSKind × Nat) :=
  match r with
  | some idx => some (k, idx)
  | none => v

/-- TortoiseCommand.get_vcs (Tortoise.py 37-63).  A none argument models a
None path (raises NotFoundError at once).  TortoiseSVN calls find_root with
find_first false, TortoiseGit and TortoiseHg with the default true.  The three
binary-path settings are taken as configured, so each constructor can raise
only RepositoryNotFoundError, the sole exception the source catches here; the
result pairs the selected backend with its root index, and Except.error models
raising NotFoundError. -/
def get_vcs : Option (List Markers) → Except Unit (VCSKind × Nat)
  | none => Except.error ()
  | some levels =>
    match overwriteOn VCSKind.hg (find_root true (levels.map Markers.hg))
        (overwriteOn VCSKind.git (find_root true (levels.map Markers.git))
          (overwriteOn VCSKind.svn (find_root false (levels.map Markers.svn)) none)) with
    | none => Except.error ()
    | some x => Except.ok x

/-- One value of the file_status_cache dictionary (Tortoise.py 371-374): the
stored timestamp (the source writes time.time() + cache_length) and the status
(None when check_status raised). -/
structure CacheEntry where
  time : Int
  status : Option (List Char)
deriving DecidableEq

/-- The file_status_cache dictionary, keyed by path. -/
abbrev Cache := List (List Char × CacheEntry)

/-- Python dict lookup on the cache. -/
def cacheLookup : Cache → List Char → Option CacheEntry
  | [], _ => none
  | kv :: rest, p => if kv.1 = p then some kv.2 else cacheLookup rest p

/-- Python dict assignment on the cache: overwrite an existing key in place,
otherwise append. -/
def cacheSet : Cache → List Char → CacheEntry → Cache
  | [], p, e => [ (p, e) ]
  | kv :: rest, p, e => if kv.1 = p then (p, e) :: rest else kv :: cacheSet rest p e

/-- Observable outcome of one Tortoise.process_status call: the cache after the
call, the returned status (None possible), how many times vcs.check_status was
invoked, and the messages shown through sublime.error_message.  The function
being total models that process_status itself never raises. -/
structure PSResult where
  cache : Cache
  ret : Option (List Char)
  calls : Nat
  dialogs : List (List Char)
deriving DecidableEq

/-- Tortoise.process_status (Tortoise.py 353-380), cache-miss tail: invoke
vcs.check_status once; a raised exception is caught and shown via
sublime.error_message, leaving status = None; then the entry
(time.time() + cache_length, status) is written unconditionally.  now2 is the
time.time() value at the write. -/
def process_status_miss (cache : Cache) (path : List Char) (cache_length now2 : Int)
    (check : Except (List Char) (List Char)) : PSResult :=
  match check with
  | Except.ok s => ⟨cacheSet cache path ⟨now2 + cache_length, some s⟩, some s, 1, []⟩
  | Except.error m => ⟨cacheSet cache path ⟨now2 + cache_length, none⟩, none, 1, [ m ]⟩

/-- Tortoise.process_status (Tortoise.py 353-380).  now is the time.time()
value at the freshness test, now2 the one at the cache write; check is the
behaviour of vcs.check_status for this path.  The source serves the cached
status when the stored timestamp is greater than now minus cache_length. -/
def process_status (cache : Cache) (path : List Char) (cache_length now now2 : Int)
    (check : Except (List Char) (List Char)) : PSResult :=
  match cacheLookup cache path with
  | some e =>
    if e.time > now - cache_length then ⟨cache, e.status, 0, []⟩
    else process_status_miss cache path cache_length now2 check
  | none => process_status_miss cache path cache_length now2 check

/-- path.replace(root_dir + backslash, empty, 1) as computed inside
SVN.check_status and Git.check_status. -/
def rel_path (root_dir path : List Char) : List Char :=
  replaceFirst (root_dir ++ [ '\\' ]) [] path

/-- SVN.check_status (Tortoise.py 592-601), the line-scanning half: skip empty
lines; skip lines the regex re.escape(rel) + dollar does not match, i.e. lines
that do not end with the relative path (unless the root itself is queried, in
which case every line matches); return the first character of the first
retained line; with no retained line return the empty status. -/
def svn_parse (root_dir path : List Char) : List (List Char) → List Char
  | [] => []
  | line :: rest =>
    match line with
    | [] => svn_parse root_dir path rest
    | c :: _ =>
      if root_dir ≠ path ∧ (rel_path root_dir path).isSuffixOf line = false then
        svn_parse root_dir path rest
      else [ c ]

/-- The fatal-error marker SVN.check_status looks for in the first output
line. -/
def svnErrMark : List Char := "svn: E".toList

/-- The working-copy-format error code that SVN.check_errors raises on. -/
def e155021 : List Char := "E155021".toList

/-- result[0].split(colon)[1].strip() as computed by SVN.check_status before
calling check_errors; only evaluated on lines starting with the marker, which
always contain a colon. -/
def svnErrCode (line : List Char) : List Char :=
  pyStrip ((splitOnChar ':' line).getD 1 [])

/-- SVN.check_status (Tortoise.py 584-590), the candidate loop: run each
configured svn binary in order (each element of the argument is the split
output of one candidate); if the first line starts with the fatal marker then
SVN.check_errors raises when the code is E155021 (Except.error) and otherwise
the loop moves on to the next candidate, keeping the output as the current
result; a first line without the marker stops the loop with that output.  When
the candidates are exhausted the last output read is used (get_svn_paths
always supplies at least one candidate, so the initial accumulator is never
returned in practice). -/
def svn_select (acc : List (List Char)) : List (List (List Char)) → Except Unit (List (List Char))
  | [] => Except.ok acc
  | res :: rest =>
    match res with
    | [] => Except.ok res
    | line :: _ =>
      if svnErrMark.isPrefixOf line = true then
        if svnErrCode line = e155021 then Except.error ()
        else svn_select res rest
      else Except.ok res

/-- SVN.check_status (Tortoise.py 583-601) in full: outputs holds the raw text
each candidate svn binary would produce (proc.run() results); it is split on
newlines, the candidate loop selects a result or raises, and the line scan
extracts the status character. -/
def svn_check_status (root_dir path : List Char) (outputs : List (List Char)) :
    Except Unit (List Char) :=
  match svn_select [] (outputs.map (splitOnChar nlChar)) with
  | Except.error e => Except.error e
  | Except.ok result => Except.ok (svn_parse root_dir path result)

/-- Git.check_status (Tortoise.py 689-702), the line scan over the split
git status --short output: skip lines shorter than two characters; skip
non-matching lines exactly as the SVN scan does; on the first retained line
take column one unless it is a blank, else column two, upper-cased. -/
def git_parse (root_dir path : List Char) : List (List Char) → List Char
  | [] => []
  | line :: rest =>
    match line with
    | c0 :: c1 :: _ =>
      if root_dir ≠ path ∧ (rel_path root_dir path).isSuffixOf line = false then
        git_parse root_dir path rest
      else if c0 ≠ ' ' then [ c0.toUpper ] else [ c1.toUpper ]
    | _ => git_parse root_dir path rest

/-- Git.check_status (Tortoise.py 677-702): for a directory (isDir true),
the output of git log -1 path is stripped and split, and an output equal to
the single empty line means untracked; for a file, the stripped and split
git status --short output goes through the line scan.  output is the
proc.run() text of whichever process the branch spawns. -/
def git_check_status (isDir : Bool) (root_dir path output : List Char) : List Char :=
  if isDir then
    if splitOnChar nlChar (pyStrip output) = [ [] ] then [ '?' ] else []
  else git_parse root_dir path (splitOnChar nlChar (pyStrip output))

/-- Hg.check_status (Tortoise.py 720-726), the line scan: hg status is already
scoped to the queried path, so the first non-empty line wins and its first
character is upper-cased. -/
def hg_parse : List (List Char) → List Char
  | [] => []
  | [] :: rest => hg_parse rest
  | (c :: _) :: _ => [ c.toUpper ]

/-- Hg.check_status (Tortoise.py 710-726): directory branch as in Git (via
hg log -l 1), file branch scans the split (unstripped) hg status output. -/
def hg_check_status (isDir : Bool) (output : List Char) : List Char :=
  if isDir then
    if splitOnChar nlChar (pyStrip output) = [ [] ] then [ '?' ] else []
  else hg_parse (splitOnChar nlChar output)

/-- One (root, dirnames, filenames) triple yielded by os.walk; dirnames is
dropped because utils.search_file never reads it. -/
structure WalkEntry where
  root : List Char
  filenames : List (List Char)
deriving DecidableEq

/-- One element of the dirs argument of utils.search_file: whether
os.path.isdir holds for it and the os.walk listing under it. -/
structure DirEntry where
  isDir : Bool
  walk : List WalkEntry
deriving DecidableEq

/-- The literal pattern utils.search_file passes to fnmatch.filter. -/
def gitExeName : List Char := "git.exe".toList

/-- os.path.join for the Windows flavour the plugin runs under, restricted to
relative second components as produced here: an empty root yields f, a root
already ending in a separator or drive colon is concatenated directly,
otherwise a backslash is inserted. -/
def ntJoin (root f : List Char) : List Char :=
  if root = [] then f
  else if root.getLast? = some '\\' ∨ root.getLast? = some '/' ∨ root.getLast? = some ':' then
    root ++ f
  else root ++ '\\' :: f

/-- fnmatch.filter(filenames, pattern) for the wildcard-free pattern git.exe
(case normalisation is platform-specific and abstracted as literal
equality). -/
def ffilterGit (filenames : List (List Char)) : List (List Char) :=
  filenames.filter (fun f => f == gitExeName)

/-- utils.search_file, innermost loop: for each fnmatch hit, set match to the
joined path and break out of this loop as soon as match is truthy (the source
keeps iterating while match is the empty string). -/
def searchInner (root : List Char) : List (List Char) → Option (List Char) → Option (List Char)
  | [], acc => acc
  | f :: fs, _acc =>
    if ntJoin root f = [] then searchInner root fs (some (ntJoin root f))
    else some (ntJoin root f)

/-- utils.search_file, os.walk loop: the break in the source only leaves the
innermost loop, so every walked root is still visited and match keeps being
overwritten. -/
def searchWalk : List WalkEntry → Option (List Char) → Option (List Char)
  | [], acc => acc
  | e :: rest, acc => searchWalk rest (searchInner e.root (ffilterGit e.filenames) acc)

/-- utils.search_file, outer loop over the dirs argument: non-directories are
skipped, everything else is walked. -/
def searchDirs : List DirEntry → Option (List Char) → Option (List Char)
  | [], acc => acc
  | d :: rest, acc =>
    if d.isDir then searchDirs rest (searchWalk d.walk acc)
    else searchDirs rest acc

/-- utils.search_file (utils.py 6-18).  The filename parameter is rebound by
the inner for loop in the source before it is ever read, so it has no effect
on the result. -/
def search_file : List Char → List DirEntry → Option (List Char) :=
  fun _filename dirs => searchDirs dirs none

/-- The join recorded by one walked directory that contains a fnmatch hit:
the first hit of the entry, joined to its root. -/
def entryMatch (e : WalkEntry) : Option (List Char) :=
  match ffilterGit e.filenames with
  | [] => none
  | f :: _ => some (ntJoin e.root f)

/-- All joined paths search_file computes, in walk order: one per walked
directory holding a file named git.exe, across the dirs arguments that are
directories. -/
def qualifyingJoins (dirs : List DirEntry) : List (List Char) :=
  (dirs.filter DirEntry.isDir).flatMap (fun d => d.walk.filterMap entryMatch)

/-! ### Helper lemmas -/

lemma find_root_loop_all_false (find_first : Bool) (bs : List Bool) :
    ∀ idx : Nat, (∀ b ∈ bs, b = false) → find_root_loop find_first bs idx none = none := by
  induction bs with
  | nil => intro idx _; rfl
  | cons b rest ih =>
    intro idx h
    have hb : b = false := h b (List.mem_cons_self b rest)
    subst hb
    simp only [find_root_loop, Option.isSome_none, Bool.false_and, Bool.and_false,
      if_false, Bool.false_eq_true, if_neg, ite_false]
    exact ih (idx + 1) (fun x hx => h x (List.mem_cons_of_mem false hx))

lemma find_root_all_false (find_first : Bool) (bs : List Bool)
    (h : ∀ b ∈ bs, b = false) : find_root find_first bs = none :=
  find_root_loop_all_false find_first bs 0 h

lemma find_root_loop_cons_true (l : List Bool) (idx : Nat) (r : Option Nat) :
    find_root_loop false (true :: l) idx r = find_root_loop false l (idx + 1) (some idx) := by
  simp [find_root_loop]

lemma find_root_loop_rep (k : Nat) :
    ∀ (idx : Nat) (tail : List Bool) (r : Option Nat),
      find_root_loop false (List.replicate (k + 1) true ++ tail) idx r =
        find_root_loop false tail (idx + k + 1) (some (idx + k)) := by
  induction k with
  | zero =>
    intro idx tail r
    rw [show List.replicate 1 true ++ tail = true :: tail by rfl, find_root_loop_cons_true]
    simp
  | succ k ih =>
    intro idx tail r
    rw [show List.replicate (k + 1 + 1) true ++ tail =
        true :: (List.replicate (k + 1) true ++ tail) by rw [List.replicate_succ]; rfl]
    rw [find_root_loop_cons_true, ih (idx + 1) tail (some idx)]
    have h1 : idx + 1 + k + 1 = idx + (k + 1) + 1 := by omega
    have h2 : idx + 1 + k = idx + (k + 1) := by omega
    rw [h1, h2]

lemma cacheLookup_cacheSet (c : Cache) (p : List Char) (e : CacheEntry) :
    cacheLookup (cacheSet c p e) p = some e := by
  induction c with
  | nil => simp [cacheSet, cacheLookup]
  | cons kv rest ih =>
    by_cases h : kv.1 = p
    · simp [cacheSet, cacheLookup, h]
    · simp [cacheSet, cacheLookup, h, ih]

/-! ### C3: find_root with find_first false -/

/-- Claim C3: when the starting directory and each ancestor up to level k carry
the marker and level k+1 (when it exists) does not, find_root with find_first
false returns level k, the outermost contiguous marker level; and when no level
on the chain carries the marker, find_root reports
RepositoryNotFoundError (none). -/
theorem find_root_c3 (k m : Nat) (rest : List Bool) :
    find_root false (List.replicate (k + 1) true ++ false :: rest) = some k ∧
    find_root false (List.replicate (k + 1) true) = some k ∧
    find_root false (List.replicate m false) = none := by
  refine ⟨?_, ?_, ?_⟩
  · unfold find_root
    rw [find_root_loop_rep]
    simp [find_root_loop]
  · unfold find_root
    rw [show List.replicate (k + 1) true = List.replicate (k + 1) true ++ [] by simp]
    rw [find_root_loop_rep]
    simp [find_root_loop]
  · exact find_root_all_false false _ (fun b hb => List.eq_of_mem_replicate hb)

/-! ### C4: get_vcs backend order -/

/-- Claim C4: get_vcs tries SVN, then Git, then Mercurial, silently skipping
attempts that fail with RepositoryNotFoundError, and the last success wins:
with only .git markers on the chain the Git backend is returned; whenever the
Mercurial root search succeeds Mercurial is returned; Git beats SVN when
Mercurial fails; SVN is returned only when both later backends fail. -/
theorem get_vcs_c4 (levels : List Markers) :
    (∀ r : Nat, (∀ x ∈ levels, x.svn = false) → (∀ x ∈ levels, x.hg = false) →
      find_root true (levels.map Markers.git) = some r →
      get_vcs (some levels) = Except.ok (VCSKind.git, r)) ∧
    (∀ r : Nat, find_root true (levels.map Markers.hg) = some r →
      get_vcs (some levels) = Except.ok (VCSKind.hg, r)) ∧
    (∀ r : Nat, find_root true (levels.map Markers.hg) = none →
      find_root true (levels.map Markers.git) = some r →
      get_vcs (some levels) = Except.ok (VCSKind.git, r)) ∧
    (∀ r : Nat, find_root true (levels.map Markers.hg) = none →
      find_root true (levels.map Markers.git) = none →
      find_root false (levels.map Markers.svn) = some r →
      get_vcs (some levels) = Except.ok (VCSKind.svn, r)) := by
  refine ⟨?_, ?_, ?_, ?_⟩
  · intro r hsvn hhg hgit
    have hs : find_root false (levels.map Markers.svn) = none := by
      refine find_root_all_false false _ (fun b hb => ?_)
      obtain ⟨x, hx, hbx⟩ := List.mem_map.1 hb
      rw [← hbx]; exact hsvn x hx
    have hh : find_root true (levels.map Markers.hg) = none := by
      refine find_root_all_false true _ (fun b hb => ?_)
      obtain ⟨x, hx, hbx⟩ := List.mem_map.1 hb
      rw [← hbx]; exact hhg x hx
    simp only [get_vcs]
    rw [hs, hgit, hh]
    rfl
  · intro r hhg
    simp only [get_vcs]
    rw [hhg]
    rfl
  · intro r hhg hgit
    simp only [get_vcs]
    rw [hhg, hgit]
    rfl
  · intro r hhg hgit hsvn
    simp only [get_vcs]
    rw [hhg, hgit, hsvn]
    rfl

/-- The marker chain of a path lying under a directory that contains only a
.git marker. -/
def c4Levels : List Markers := [ ⟨false, true, false⟩ ]

/-- Witness for C4: on a chain whose only marker is .git at level 0, get_vcs
selects the Git backend with root 0. -/
theorem get_vcs_c4_witness :
    find_root true (c4Levels.map Markers.git) = some 0 ∧
    get_vcs (some c4Levels) = Except.ok (VCSKind.git, 0) :=
  ⟨by decide, (get_vcs_c4 c4Levels).1 0 (by decide) (by decide) (by decide)⟩

/-! ### C2: the cache freshness window -/

/-- Sample path used by the cache counterexamples and witnesses. -/
def c2Path : List Char := "C:\\repo\\file.txt".toList

/-- A cache holding an entry for c2Path whose stored timestamp is 10. -/
def c2Cache : Cache := [ (c2Path, ⟨10, some [ 'M' ]⟩) ]

/-- Claim C2 counterexample: with TTL 5 the cached entry records timestamp 10
(write time 5 plus TTL), which at now = 12 is already in the past, yet
process_status serves the cached status M with zero check_status calls,
because the source compares the stored timestamp against now minus TTL.  So
a lookup whose recorded expiry is not in the future can still be answered from
the cache, and the entry written at time 5 is not refreshed once TTL has
elapsed, both contradicting the claim. -/
theorem process_status_c2_counterexample :
    process_status c2Cache c2Path 5 12 12 (Except.ok [ 'A' ]) =
      ⟨c2Cache, some [ 'M' ], 0, []⟩ ∧
    (10 : Int) ≤ 12 :=
  ⟨rfl, by decide⟩

/-- Claim C2 amended: an entry written at time w (stored timestamp w + TTL)
serves lookups from the cache, with no check_status call, exactly while
now < w + 2 * TTL; once 2 * TTL has elapsed since the write, the next lookup
makes exactly one check_status call and overwrites the entry with the fresh
status and stored timestamp now + TTL. -/
theorem process_status_c2_amended (cache : Cache) (path : List Char)
    (cache_length now now2 w : Int) (check : Except (List Char) (List Char))
    (e : CacheEntry) (hfind : cacheLookup cache path = some e)
    (hw : e.time = w + cache_length) :
    (now < w + 2 * cache_length →
      process_status cache path cache_length now now2 check = ⟨cache, e.status, 0, []⟩) ∧
    (w + 2 * cache_length ≤ now →
      process_status cache path cache_length now now2 check =
        process_status_miss cache path cache_length now2 check) ∧
    (∀ s, process_status_miss cache path cache_length now2 (Except.ok s) =
      ⟨cacheSet cache path ⟨now2 + cache_length, some s⟩, some s, 1, []⟩) := by
  refine ⟨?_, ?_, fun s => rfl⟩
  · intro h
    simp only [process_status, hfind]
    rw [if_pos (show e.time > now - cache_length by omega)]
  · intro h
    simp only [process_status, hfind]
    rw [if_neg (show ¬ e.time > now - cache_length by omega)]

/-- Witness for the amended C2: at now = 12 (before 2 * TTL after the write at
5) the entry is served from the cache; at now = 20 (after 2 * TTL) one fresh
check_status call overwrites it. -/
theorem process_status_c2_amended_witness :
    cacheLookup c2Cache c2Path = some ⟨10, some [ 'M' ]⟩ ∧
    process_status c2Cache c2Path 5 12 12 (Except.ok [ 'A' ]) =
      ⟨c2Cache, some [ 'M' ], 0, []⟩ ∧
    process_status c2Cache c2Path 5 20 20 (Except.ok [ 'A' ]) =
      ⟨cacheSet c2Cache c2Path ⟨25, some [ 'A' ]⟩, some [ 'A' ], 1, []⟩ := by
  have h12 := process_status_c2_amended c2Cache c2Path 5 12 12 5 (Except.ok [ 'A' ])
    ⟨10, some [ 'M' ]⟩ (by decide) (by decide)
  have h20 := process_status_c2_amended c2Cache c2Path 5 20 20 5 (Except.ok [ 'A' ])
    ⟨10, some [ 'M' ]⟩ (by decide) (by decide)
  refine ⟨by decide, h12.1 (by decide), ?_⟩
  exact (h20.2.1 (by decide)).trans (h20.2.2 [ 'A' ])

/-! ### C5: a raising check_status is caught, reported and cached as absent -/

/-- Claim C5: on a cache miss where vcs.check_status raises, process_status
shows the exception text through the dialog mechanism, returns None instead of
raising (the embedding is a total function), and still writes a cache entry
with absent status and stored timestamp now + TTL. -/
theorem process_status_c5 (cache : Cache) (path msg : List Char)
    (cache_length now now2 : Int) (hmiss : cacheLookup cache path = none) :
    process_status cache path cache_length now now2 (Except.error msg) =
      ⟨cacheSet cache path ⟨now2 + cache_length, none⟩, none, 1, [ msg ]⟩ ∧
    (process_status cache path cache_length now now2 (Except.error msg)).ret = none ∧
    (process_status cache path cache_length now now2 (Except.error msg)).dialogs = [ msg ] := by
  have h : process_status cache path cache_length now now2 (Except.error msg) =
      ⟨cacheSet cache path ⟨now2 + cache_length, none⟩, none, 1, [ msg ]⟩ := by
    simp only [process_status, hmiss]
    rfl
  exact ⟨h, by rw [h], by rw [h]⟩

/-- Witness for C5: a failing check_status on an empty cache yields a None
return, one dialog with the exception text, and a written entry with absent
status. -/
theorem process_status_c5_witness :
    cacheLookup [] c2Path = none ∧
    process_status [] c2Path 5 7 7 (Except.error ( "boom".toList)) =
      ⟨[ (c2Path, ⟨12, none⟩) ], none, 1, [ "boom".toList ]⟩ := by
  have h := process_status_c5 [] c2Path ( "boom".toList) 5 7 7 (by decide)
  exact ⟨by decide, h.1⟩

/-! ### C9: no second process call within the TTL window -/

/-- Claim C9: starting from a cache without the path, a first lookup makes one
check_status call, and a second lookup within TTL of the first write is served
from the cache, so the two lookups make exactly one call in total and the
second returns the first status. -/
theorem process_status_c9 (cache : Cache) (p s1 : List Char)
    (cache_length t1 w1 t2 w2 : Int) (chk2 : Except (List Char) (List Char))
    (hmiss : cacheLookup cache p = none) (hL : 0 ≤ cache_length)
    (hwin : t2 < w1 + cache_length) :
    (process_status cache p cache_length t1 w1 (Except.ok s1)).calls = 1 ∧
    (process_status (process_status cache p cache_length t1 w1 (Except.ok s1)).cache
      p cache_length t2 w2 chk2).calls = 0 ∧
    (process_status (process_status cache p cache_length t1 w1 (Except.ok s1)).cache
      p cache_length t2 w2 chk2).ret = some s1 ∧
    (process_status cache p cache_length t1 w1 (Except.ok s1)).calls +
      (process_status (process_status cache p cache_length t1 w1 (Except.ok s1)).cache
        p cache_length t2 w2 chk2).calls = 1 := by
  have h1 : process_status cache p cache_length t1 w1 (Except.ok s1) =
      ⟨cacheSet cache p ⟨w1 + cache_length, some s1⟩, some s1, 1, []⟩ := by
    simp only [process_status, hmiss]
    rfl
  have h2 : process_status (cacheSet cache p ⟨w1 + cache_length, some s1⟩)
      p cache_length t2 w2 chk2 =
      ⟨cacheSet cache p ⟨w1 + cache_length, some s1⟩, some s1, 0, []⟩ := by
    simp only [process_status, cacheLookup_cacheSet]
    rw [if_pos (show (w1 + cache_length : Int) > t2 - cache_length by omega)]
  rw [h1]
  simp only []
  simp [h2]

/-- Witness for C9: with TTL 5, a first lookup at time 0 and a second at time 4
make one check_status call in total and the second returns the cached M. -/
theorem process_status_c9_witness :
    cacheLookup [] c2Path = none ∧ (0 : Int) ≤ 5 ∧ (4 : Int) < 0 + 5 ∧
    (process_status [] c2Path 5 0 0 (Except.ok [ 'M' ])).calls = 1 ∧
    (process_status (process_status [] c2Path 5 0 0 (Except.ok [ 'M' ])).cache
      c2Path 5 4 4 (Except.ok [ 'A' ])).calls = 0 ∧
    (process_status (process_status [] c2Path 5 0 0 (Except.ok [ 'M' ])).cache
      c2Path 5 4 4 (Except.ok [ 'A' ])).ret = some [ 'M' ] := by
  have h := process_status_c9 [] c2Path [ 'M' ] 5 0 0 4 4 (Except.ok [ 'A' ])
    (by decide) (by decide) (by decide)
  exact ⟨by decide, by decide, by decide, h.1, h.2.1, h.2.2.1⟩

/-! ### C1: SVN line-to-path matching -/

/-- Repository root used by the SVN matching counterexample. -/
def c1Root : List Char := "C:\\r".toList

/-- Queried path used by the SVN matching counterexample; its path relative to
c1Root is foo.txt. -/
def c1Path : List Char := "C:\\r\\foo.txt".toList

/-- A status listing holding a line for barfoo.txt (status M) before the line
for foo.txt (status A). -/
def c1Out : List Char := "M       barfoo.txt\nA       foo.txt".toList

/-- Claim C1 counterexample: querying foo.txt against a listing that contains
both barfoo.txt (status M) and foo.txt (status A) returns M, the status
character of the barfoo.txt line, because the line text barfoo.txt ends with
the relative path foo.txt and end-of-line anchoring does not separate path
components. -/
theorem svn_c1_counterexample :
    svn_check_status c1Root c1Path [ c1Out ] = Except.ok [ 'M' ] ∧
    ([ 'M' ] : List Char) ≠ [ 'A' ] :=
  ⟨rfl, by decide⟩

/-- Claim C1 amended: the SVN scan takes the first character of the first line
whose text ends with the path relative to the root (every line matches when the
root itself is queried), and skips lines without that suffix; this rejects
lines for paths that extend the query at the end, such as foo.txt.bak, but a
query for foo.txt can still take its status from an earlier barfoo.txt line,
whose text also ends in foo.txt. -/
theorem svn_c1_amended (root_dir path line : List Char) (c : Char) (tail : List Char)
    (rest : List (List Char)) :
    (line = c :: tail → (rel_path root_dir path).isSuffixOf line = true →
      svn_parse root_dir path (line :: rest) = [ c ]) ∧
    (root_dir ≠ path → (rel_path root_dir path).isSuffixOf line = false →
      svn_parse root_dir path (line :: rest) = svn_parse root_dir path rest) := by
  constructor
  · intro hline hsuf
    subst hline
    simp only [svn_parse]
    rw [if_neg]
    rintro ⟨-, hfalse⟩
    rw [hsuf] at hfalse
    exact absurd hfalse (by decide)
  · intro hne hsuf
    cases line with
    | nil => simp [svn_parse]
    | cons c0 t0 =>
      simp only [svn_parse]
      rw [if_pos ⟨hne, hsuf⟩]

/-- Witness for the amended C1: the barfoo.txt line matches the query for
foo.txt and supplies its status, while a foo.txt.bak line does not match and
is skipped. -/
theorem svn_c1_amended_witness :
    (rel_path c1Root c1Path).isSuffixOf ( "M       barfoo.txt".toList) = true ∧
    svn_parse c1Root c1Path [ "M       barfoo.txt".toList ] = [ 'M' ] ∧
    (rel_path c1Root c1Path).isSuffixOf ( "M       foo.txt.bak".toList) = false ∧
    svn_parse c1Root c1Path [ "M       foo.txt.bak".toList ] = [] := by
  refine ⟨by decide, ?_, by decide, ?_⟩
  · exact (svn_c1_amended c1Root c1Path ( "M       barfoo.txt".toList) 'M'
      ( "       barfoo.txt".toList) []).1 (by decide) (by decide)
  · exact ((svn_c1_amended c1Root c1Path ( "M       foo.txt.bak".toList) 'M' [] []).2
      (by decide) (by decide)).trans rfl

/-! ### C8: the E155021 fatal error and the candidate loop -/

/-- A first output line reporting the working-copy-format error. -/
def c8Out : List Char := "svn: E155021: This client is too old to work with the working copy".toList

/-- Claim C8: a first output line reporting the fatal code E155021 makes
SVN.check_status raise the too-old-client exception instead of parsing a
status character; a candidate whose first line reports a different fatal
svn: E code is skipped in favour of the next candidate; and a candidate whose
first line is not a fatal error line stops the loop with its output. -/
theorem svn_c8 (root_dir path out : List Char) (outs : List (List Char))
    (line : List Char) (ls acc : List (List Char)) (rest : List (List (List Char))) :
    (splitOnChar nlChar out = line :: ls → svnErrMark.isPrefixOf line = true →
      svnErrCode line = e155021 →
      svn_check_status root_dir path (out :: outs) = Except.error ()) ∧
    (svnErrMark.isPrefixOf line = true → svnErrCode line ≠ e155021 →
      svn_select acc ((line :: ls) :: rest) = svn_select (line :: ls) rest) ∧
    (svnErrMark.isPrefixOf line = false →
      svn_select acc ((line :: ls) :: rest) = Except.ok (line :: ls)) := by
  refine ⟨?_, ?_, ?_⟩
  · intro hsplit hpre hcode
    simp only [svn_check_status, List.map_cons]
    rw [hsplit]
    simp only [svn_select]
    rw [if_pos hpre, if_pos hcode]
  · intro hpre hcode
    simp only [svn_select]
    rw [if_pos hpre, if_neg hcode]
  · intro hpre
    simp only [svn_select]
    rw [if_neg (by rw [hpre]; decide)]

/-- Witness for C8: a single candidate whose output is the E155021 error line
makes svn_check_status raise rather than return a status. -/
theorem svn_c8_witness :
    splitOnChar nlChar c8Out = [ c8Out ] ∧
    svnErrMark.isPrefixOf c8Out = true ∧
    svnErrCode c8Out = e155021 ∧
    svn_check_status c1Root c1Path [ c8Out ] = Except.error () := by
  have h := svn_c8 c1Root c1Path c8Out [] c8Out [] [] []
  exact ⟨by decide, by decide, by decide, h.1 (by decide) (by decide) (by decide)⟩

/-! ### C6: git short-status column extraction -/

/-- Repository root used by the Git parsing claims. -/
def c6Root : List Char := "C:\\repo".toList

/-- Queried file used by the Git parsing claims; its path relative to c6Root is
path/to/file.txt, the form in which git status prints it. -/
def c6Path : List Char := "C:\\repo\\path/to/file.txt".toList

/-- Claim C6: on the first matching line of at least two characters, the Git
scan returns column one unless it is a blank, in which case column two,
upper-cased; in particular the spec examples hold through the whole of
Git.check_status: output consisting of the line with a blank first column and
M in the second yields M, and the line with A in the first column yields A. -/
theorem git_c6 (root_dir path : List Char) (c0 c1 : Char) (tail : List Char)
    (rest : List (List Char))
    (hmatch : root_dir = path ∨ (rel_path root_dir path).isSuffixOf (c0 :: c1 :: tail) = true) :
    git_parse root_dir path ((c0 :: c1 :: tail) :: rest) =
      (if c0 ≠ ' ' then [ c0.toUpper ] else [ c1.toUpper ]) ∧
    git_check_status false c6Root c6Path ( " M path/to/file.txt".toList) = [ 'M' ] ∧
    git_check_status false c6Root c6Path ( "A  path/to/file.txt".toList) = [ 'A' ] := by
  refine ⟨?_, rfl, rfl⟩
  simp only [git_parse]
  rw [if_neg]
  rintro ⟨hne, hfalse⟩
  cases hmatch with
  | inl h => exact hne h
  | inr h => rw [h] at hfalse; exact absurd hfalse (by decide)

/-- Witness for C6: the line with a blank index column and M in the worktree
column matches the query for path/to/file.txt and yields status M. -/
theorem git_c6_witness :
    (rel_path c6Root c6Path).isSuffixOf ( ' ' :: 'M' :: " path/to/file.txt".toList) = true ∧
    git_parse c6Root c6Path [ ' ' :: 'M' :: " path/to/file.txt".toList ] = [ 'M' ] := by
  have h := git_c6 c6Root c6Path ' ' 'M' ( " path/to/file.txt".toList) [] (Or.inr (by decide))
  refine ⟨by decide, ?_⟩
  rw [h.1]
  decide

/-! ### C7: empty or non-matching output -/

/-- Claim C7 counterexample: for a directory query, Git.check_status maps
empty process output to the untracked marker, not to the empty status. -/
theorem git_c7_counterexample :
    git_check_status true c6Root c6Path [] = [ '?' ] ∧ ([ '?' ] : List Char) ≠ [] :=
  ⟨rfl, by decide⟩

lemma svn_parse_no_match (root_dir path : List Char) (lines : List (List Char))
    (h : ∀ l ∈ lines, l = [] ∨
      (root_dir ≠ path ∧ (rel_path root_dir path).isSuffixOf l = false)) :
    svn_parse root_dir path lines = [] := by
  induction lines with
  | nil => rfl
  | cons l rest ih =>
    have hl := h l (List.mem_cons_self l rest)
    have hrest : svn_parse root_dir path rest = [] :=
      ih (fun x hx => h x (List.mem_cons_of_mem l hx))
    cases l with
    | nil => simp [svn_parse, hrest]
    | cons c t =>
      rcases hl with hl | hl
      · exact absurd hl (by simp)
      · simp only [svn_parse]
        rw [if_pos hl]
        exact hrest

lemma git_parse_no_match (root_dir path : List Char) (lines : List (List Char))
    (h : ∀ l ∈ lines, l.length < 2 ∨
      (root_dir ≠ path ∧ (rel_path root_dir path).isSuffixOf l = false)) :
    git_parse root_dir path lines = [] := by
  induction lines with
  | nil => rfl
  | cons l rest ih =>
    have hl := h l (List.mem_cons_self l rest)
    have hrest : git_parse root_dir path rest = [] :=
      ih (fun x hx => h x (List.mem_cons_of_mem l hx))
    match l with
    | [] => simpa [git_parse] using hrest
    | [ c ] => simpa [git_parse] using hrest
    | c0 :: c1 :: t =>
      rcases hl with hl | hl
      · exact absurd hl (by simp)
      · simp only [git_parse]
        rw [if_pos hl]
        exact hrest

lemma hg_parse_all_nil (lines : List (List Char)) (h : ∀ l ∈ lines, l = []) :
    hg_parse lines = [] := by
  induction lines with
  | nil => rfl
  | cons l rest ih =>
    have hl := h l (List.mem_cons_self l rest)
    subst hl
    simp only [hg_parse]
    exact ih (fun x hx => h x (List.mem_cons_of_mem [] hx))

/-- Claim C7 amended: for file (non-directory) queries the three parsers map
empty output, and output with no line matching the queried path, to the empty
status without raising (for SVN, provided the candidate loop settled on an
output, i.e. no E155021 error was raised); the original claim fails for
directory queries, where Git and Hg map empty output to the untracked
marker. -/
theorem c7_amended (root_dir path : List Char) (outs : List (List Char))
    (result lines : List (List Char)) :
    (svn_select [] (outs.map (splitOnChar nlChar)) = Except.ok result →
      (∀ l ∈ result, l = [] ∨
        (root_dir ≠ path ∧ (rel_path root_dir path).isSuffixOf l = false)) →
      svn_check_status root_dir path outs = Except.ok []) ∧
    ((∀ l ∈ lines, l.length < 2 ∨
        (root_dir ≠ path ∧ (rel_path root_dir path).isSuffixOf l = false)) →
      git_parse root_dir path lines = []) ∧
    ((∀ l ∈ lines, l = []) → hg_parse lines = []) ∧
    git_check_status false root_dir path [] = [] ∧
    hg_check_status false [] = [] ∧
    svn_check_status root_dir path [ [] ] = Except.ok [] := by
  refine ⟨?_, git_parse_no_match root_dir path lines, hg_parse_all_nil lines, rfl, rfl, rfl⟩
  intro hsel hmatch
  simp only [svn_check_status]
  rw [hsel]
  show Except.ok (svn_parse root_dir path result) = Except.ok ([] : List Char)
  rw [svn_parse_no_match root_dir path result hmatch]

/-- Witness for the amended C7: output mentioning only another file yields the
empty status from all three scans. -/
theorem c7_amended_witness :
    svn_check_status c6Root c6Path [ "A       other.txt".toList ] = Except.ok [] ∧
    git_parse c6Root c6Path [ "?? other.txt".toList ] = [] ∧
    hg_parse [ [] ] = [] := by
  have h := c7_amended c6Root c6Path [ "A       other.txt".toList ]
    [ "A       other.txt".toList ] [ "?? other.txt".toList ]
  exact ⟨h.1 rfl (by decide), h.2.1 (by decide), (c7_amended c6Root c6Path [] [] [ [] ]).2.2.1 (by decide)⟩

/-! ### C10: utils.search_file -/

lemma mem_ffilterGit {f : List Char} {fns : List (List Char)} (h : f ∈ ffilterGit fns) :
    f = gitExeName := by
  unfold ffilterGit at h
  exact eq_of_beq (List.mem_filter.1 h).2

lemma ntJoin_gitExe_ne_nil (root : List Char) : ntJoin root gitExeName ≠ [] := by
  unfold ntJoin
  split
  · decide
  · split
    · intro hc
      exact absurd (List.append_eq_nil.1 hc).2 (by decide)
    · intro hc
      exact absurd (List.append_eq_nil.1 hc).2 (by simp)

lemma searchInner_eq (e : WalkEntry) (acc : Option (List Char)) :
    searchInner e.root (ffilterGit e.filenames) acc =
      match entryMatch e with
      | none => acc
      | some j => some j := by
  unfold entryMatch
  cases hf : ffilterGit e.filenames with
  | nil => simp [searchInner]
  | cons f fs =>
    have hfe : f = gitExeName := mem_ffilterGit (by rw [hf]; exact List.mem_cons_self f fs)
    subst hfe
    simp [searchInner, ntJoin_gitExe_ne_nil e.root]

lemma searchWalk_eq (entries : List WalkEntry) (acc : Option (List Char)) :
    searchWalk entries acc = lastOr (entries.filterMap entryMatch) acc := by
  induction entries generalizing acc with
  | nil => rfl
  | cons e rest ih =>
    simp only [searchWalk]
    rw [searchInner_eq, ih, List.filterMap_cons]
    cases hm : entryMatch e with
    | none => rfl
    | some j => simp [lastOr]

lemma lastOr_append (a b : List (List Char)) (acc : Option (List Char)) :
    lastOr (a ++ b) acc = lastOr b (lastOr a acc) := by
  induction a generalizing acc with
  | nil => rfl
  | cons x xs ih => simp [lastOr, ih]

lemma searchDirs_eq (dirs : List DirEntry) (acc : Option (List Char)) :
    searchDirs dirs acc = lastOr (qualifyingJoins dirs) acc := by
  induction dirs generalizing acc with
  | nil => rfl
  | cons d rest ih =>
    simp only [searchDirs, qualifyingJoins]
    cases hd : d.isDir with
    | true =>
      rw [if_pos rfl, List.filter_cons_of_pos hd, List.flatMap_cons, lastOr_append]
      rw [ih, searchWalk_eq]
      rfl
    | false =>
      rw [if_neg (by simp), List.filter_cons_of_neg (by simp [hd])]
      exact ih acc

lemma lastOr_some_eq (t : List (List Char)) :
    ∀ a : List Char, lastOr t (some a) = (a :: t).getLast? := by
  induction t with
  | nil => intro a; simp [lastOr]
  | cons b t2 ih =>
    intro a
    rw [List.getLast?_cons_cons]
    simpa [lastOr] using ih b

lemma lastOr_none_eq (l : List (List Char)) : lastOr l none = l.getLast? := by
  cases l with
  | nil => rfl
  | cons a t => exact lastOr_some_eq t a

/-- Claim C10: search_file ignores its filename argument entirely (the source
rebinds it before reading it); the matched files are exactly those literally
named git.exe, one hit per walked directory, under the dirs arguments that are
existing directories; the returned value is the join from the LAST such walked
directory (none when there is none, including when no argument is an existing
directory), and no exception is raised (the embedding is total). -/
theorem search_file_c10 (filename filename2 : List Char) (dirs : List DirEntry) :
    search_file filename dirs = (qualifyingJoins dirs).getLast? ∧
    search_file filename dirs = search_file filename2 dirs ∧
    (qualifyingJoins dirs = [] → search_file filename dirs = none) := by
  have h : search_file filename dirs = (qualifyingJoins dirs).getLast? := by
    show searchDirs dirs none = (qualifyingJoins dirs).getLast?
    rw [searchDirs_eq, lastOr_none_eq]
  refine ⟨h, rfl, ?_⟩
  intro hq
  rw [h, hq]
  rfl

/-- Directories with git.exe present under two walked roots; search_file must
return the join from the second (last) one. -/
def c10Dirs : List DirEntry :=
  [ ⟨true, [ ⟨ "C:\\a".toList, [ "readme.txt".toList, gitExeName ] ⟩,
             ⟨ "C:\\b".toList, [ gitExeName ] ⟩ ] ⟩ ]

/-- A dirs argument whose only element is not an existing directory, although
its (never-walked) listing contains git.exe. -/
def c10NoDirs : List DirEntry := [ ⟨false, [ ⟨ "C:\\a".toList, [ gitExeName ] ⟩ ] ⟩ ]

/-- Witness for C10: ignoring the hg.exe filename argument, the join from the
last walked directory is returned; with no existing directory the result is
none. -/
theorem search_file_c10_witness :
    search_file ( "hg.exe".toList) c10Dirs = some ( "C:\\b\\git.exe".toList) ∧
    qualifyingJoins c10NoDirs = [] ∧
    search_file ( "git.exe".toList) c10NoDirs = none := by
  have h := search_file_c10 ( "hg.exe".toList) ( "git.exe".toList) c10Dirs
  have h2 := search_file_c10 ( "git.exe".toList) ( "x".toList) c10NoDirs
  refine ⟨?_, by decide, h2.2.2 (by decide)⟩
  rw [h.1]
  decide

end Tortoise
